import Mathlib

/-!
Verification of the tstack-blog scaffold planning engine (described in
`docs/CLI_SCAFFOLD_GUIDE.md` and `docs/BASE_ABSTRACTIONS_ARCHITECTURE.md`;
the engine itself is a prospective CLI with no implementation under `src/`,
so its components are modelled from the spec) and of the concrete
`BaseService` CRUD operations in `src/shared/services/base.service.ts`.
-/

namespace TStack

/-- The five CRUD operation categories (spec §3 RouteKind). -/
inductive RouteKind
  | getAll
  | getById
  | create
  | update
  | delete
deriving DecidableEq, Repr

/-- A RouteKind is mutating when it is create, update or delete. -/
def RouteKind.isMutating : RouteKind → Bool
  | .create => true
  | .update => true
  | .delete => true
  | _ => false

/-- Auth modes accepted by the `auth` option (spec §6). -/
inductive AuthType
  | none
  | ownership
  | role
  | custom
deriving DecidableEq, Repr

/-- The six recognized lifecycle hook names (spec §6). -/
def recognizedHooks : List String :=
  ["beforeCreate", "afterCreate", "beforeUpdate", "afterUpdate",
   "beforeDelete", "afterDelete"]

/-- Modelled from the spec: EntitySpec, the raw user-supplied generation
configuration for one entity (spec §3); no implementation exists under
`src/`, only the documentation's `CLIOptions` sketch. -/
structure EntitySpec where
  name : String
  authType : AuthType
  ownershipField : Option String
  publicRoutes : List RouteKind
  disabledRoutes : List RouteKind
  roles : List String
  hooks : List String
  withAdmin : Bool
  withTests : Bool
  skipMigration : Bool
deriving DecidableEq, Repr

/-- Capitalize the first character of a string (doc helper `capitalize`). -/
def capitalize (s : String) : String :=
  match s.data with
  | [] => s
  | c :: cs => String.mk (c.toUpper :: cs)

/-- Lowercase every character of a string. -/
def lowercase (s : String) : String :=
  String.mk (s.data.map Char.toLower)

/-- Simple English pluralization (spec §4.1): `y`→`ies`; `s/x/ch/sh`→`es`;
otherwise append `s`. Irregular plurals are not handled. -/
def pluralize (s : String) : String :=
  if s.endsWith "y" then String.mk (s.data.dropLast) ++ "ies"
  else if s.endsWith "s" || s.endsWith "x" || s.endsWith "ch" || s.endsWith "sh" then
    s ++ "es"
  else s ++ "s"

/-- snake_case form of a camelCase identifier (doc helper `toSnakeCase`):
each uppercase letter becomes an underscore followed by its lowercase. -/
def toSnakeCase (s : String) : String :=
  String.mk (s.data.flatMap (fun c => if c.isUpper then ['_', c.toLower] else [c]))

/-- Derived naming forms produced by the Identifier Deriver (spec §4.1). -/
structure Identifiers where
  entityName : String
  EntityName : String
  entityNamePlural : String
  EntityNamePlural : String
  tableName : String
deriving DecidableEq, Repr

/-- Malformed entity name error (spec §7). -/
inductive InvalidIdentifier
  | emptyName
  | nonAlphabetic
deriving DecidableEq, Repr

/-- Modelled from the spec: the Identifier Deriver (spec §4.1); pure. Fails
with `InvalidIdentifier` on an empty or non-alphabetic entity name,
otherwise derives all naming forms. -/
def deriveIdentifiers (name : String) : Except InvalidIdentifier Identifiers :=
  if name.isEmpty then .error .emptyName
  else if !(name.data.all Char.isAlpha) then .error .nonAlphabetic
  else
    let entityName := lowercase name
    let entityNamePlural := pluralize entityName
    .ok { entityName := entityName
          EntityName := capitalize entityName
          entityNamePlural := entityNamePlural
          EntityNamePlural := capitalize entityNamePlural
          tableName := entityNamePlural }

/-- Contradictory or unrecognized configuration (spec §4.2, §7); each
validation rule is a distinct failure. -/
inductive ConfigError
  | emptyRolesForRoleAuth
  | emptyOwnershipField
  | publicDisabledConflict (k : RouteKind)
  | unknownHook (h : String)
deriving DecidableEq, Repr

/-- Modelled from the spec: defaulting of `ownershipField` (spec §4.2):
the explicit value when one is given, else `"userId"` when
`authType == ownership`, else absent. -/
def defaultedOwnershipField (s : EntitySpec) : Option String :=
  match s.ownershipField with
  | some v => some v
  | none => if s.authType = .ownership then some "userId" else none

/-- Modelled from the spec: the Option Normalizer's validation rules
(spec §4.2), collecting every violated rule (spec §7: every collected
error is reported, not just the first). -/
def validateSpec (s : EntitySpec) : List ConfigError :=
  (if s.authType = .role ∧ s.roles = [] then [ConfigError.emptyRolesForRoleAuth] else [])
  ++ (if s.authType = .ownership ∧ s.ownershipField = some "" then
        [ConfigError.emptyOwnershipField] else [])
  ++ ((s.publicRoutes.filter (fun k => k ∈ s.disabledRoutes)).map
        ConfigError.publicDisabledConflict)
  ++ ((s.hooks.filter (fun h => h ∉ recognizedHooks)).map ConfigError.unknownHook)

/-- NormalizedConfig: fully validated, defaulted form of EntitySpec with
the naming forms precomputed (spec §3). -/
structure NormalizedConfig where
  entityName : String
  EntityName : String
  entityNamePlural : String
  tableName : String
  ownershipField : Option String
  ownershipFieldSnake : Option String
  authType : AuthType
  publicRoutes : List RouteKind
  disabledRoutes : List RouteKind
  roles : List String
  hooks : List String
  withAdmin : Bool
  withTests : Bool
  skipMigration : Bool
deriving DecidableEq, Repr

/-- Modelled from the spec: the Option Normalizer (spec §4.2): given the
derived identifiers and the raw EntitySpec, either all validation rules
pass and a NormalizedConfig with all defaults resolved is produced, or it
fails with the full list of configuration errors. -/
def normalize (ids : Identifiers) (s : EntitySpec) :
    Except (List ConfigError) NormalizedConfig :=
  match validateSpec s with
  | [] =>
    let of := defaultedOwnershipField s
    .ok { entityName := ids.entityName
          EntityName := ids.EntityName
          entityNamePlural := ids.entityNamePlural
          tableName := ids.tableName
          ownershipField := of
          ownershipFieldSnake := of.map toSnakeCase
          authType := s.authType
          publicRoutes := s.publicRoutes
          disabledRoutes := s.disabledRoutes
          roles := s.roles
          hooks := s.hooks
          withAdmin := s.withAdmin
          withTests := s.withTests
          skipMigration := s.skipMigration }
  | errs => .error errs

/-- Resolved authorization requirement for one mutating route (spec §3). -/
structure AuthRule where
  roles : List String
  ownershipCheck : Bool
  customCheck : Bool
  superadminBypass : Bool
deriving DecidableEq, Repr

/-- The all-empty/false AuthRule (spec §4.3, `authType == none` branch). -/
def AuthRule.empty : AuthRule :=
  { roles := [], ownershipCheck := false, customCheck := false, superadminBypass := false }

/-- Modelled from the spec: the Authorization Plan Builder's per-route rule
(spec §4.3). `none`: all-empty; `role`: the config's roles with superadmin
bypass; `ownership`: ownership check with bypass on update/delete only;
`custom`: custom check marked. Non-mutating kinds get the empty rule. -/
def buildAuthRule (cfg : NormalizedConfig) (k : RouteKind) : AuthRule :=
  if k.isMutating then
    match cfg.authType with
    | .none => AuthRule.empty
    | .role => { roles := cfg.roles, ownershipCheck := false, customCheck := false,
                 superadminBypass := true }
    | .ownership =>
      if k = .update ∨ k = .delete then
        { roles := [], ownershipCheck := true, customCheck := false,
          superadminBypass := true }
      else AuthRule.empty
    | .custom => { roles := [], ownershipCheck := false, customCheck := true,
                   superadminBypass := false }
  else AuthRule.empty

/-- The authorization plan: a rule per mutating RouteKind plus the
side-effect contract that `create` must inject the ownership field from
the caller's identity (spec §4.3, ownership branch). -/
structure AuthPlan where
  create : AuthRule
  update : AuthRule
  delete : AuthRule
  injectOwnershipOnCreate : Bool
deriving DecidableEq, Repr

/-- Modelled from the spec: the Authorization Plan Builder (spec §4.3),
total over valid NormalizedConfig. -/
def buildAuthPlan (cfg : NormalizedConfig) : AuthPlan :=
  { create := buildAuthRule cfg .create
    update := buildAuthRule cfg .update
    delete := buildAuthRule cfg .delete
    injectOwnershipOnCreate := cfg.authType = .ownership }

/-- Outcomes of the individual authorization checks for one request
(whether the caller is superadmin, and whether each check would pass). -/
structure AuthContext where
  isSuperadmin : Bool
  roleOk : Bool
  ownershipOk : Bool
  customOk : Bool
deriving DecidableEq, Repr

/-- Modelled from the spec: evaluation of an AuthRule (spec §4.3 invariant
and glossary): the superadmin bypass, when present, short-circuits before
the role, ownership and custom checks. -/
def evalAuth (rule : AuthRule) (ctx : AuthContext) : Bool :=
  if rule.superadminBypass && ctx.isSuperadmin then true
  else (rule.roles.isEmpty || ctx.roleOk)
       && (!rule.ownershipCheck || ctx.ownershipOk)
       && (!rule.customCheck || ctx.customOk)

/-- Middleware references in the fixed precedence order of spec §4.4. -/
inductive MiddlewareRef
  | auth
  | role
  | custom
  | validation
deriving DecidableEq, Repr

/-- Resolved emission/visibility/middleware outcome for one route
(spec §3 RouteDecision). -/
structure RouteDecision where
  emitted : Bool
  public : Bool
  middlewareChain : List MiddlewareRef
deriving DecidableEq, Repr

/-- Modelled from the spec: the Route Plan Builder's decision for one
RouteKind (spec §4.4): disabled routes are not emitted; only read routes
may be public; the middleware chain is concatenated in the fixed order
auth, role, custom, validation. -/
def buildRouteDecision (cfg : NormalizedConfig) (k : RouteKind) : RouteDecision :=
  if k ∈ cfg.disabledRoutes then
    { emitted := false, public := false, middlewareChain := [] }
  else
    let rule := buildAuthRule cfg k
    let pub := if k.isMutating then false else decide (k ∈ cfg.publicRoutes)
    { emitted := true
      public := pub
      middlewareChain :=
        (if !pub then [MiddlewareRef.auth] else [])
        ++ (if !rule.roles.isEmpty then [MiddlewareRef.role] else [])
        ++ (if rule.customCheck then [MiddlewareRef.custom] else [])
        ++ (if k = .create ∨ k = .update then [MiddlewareRef.validation] else []) }

/-- The artifact categories of a generation plan (spec §3, §4.5). -/
inductive ArtifactKind
  | model
  | dto
  | service
  | controller
  | route
  | adminRoute
  | test
  | migration
deriving DecidableEq, Repr

/-- Fixed dependency edges of the artifact DAG (spec §3): model has none;
DTO depends on model; service on model and DTO; controller on service;
route on controller and DTO; admin route on model; test on route. -/
def artifactDeps : ArtifactKind → List ArtifactKind
  | .model => []
  | .dto => [.model]
  | .service => [.model, .dto]
  | .controller => [.service]
  | .route => [.controller, .dto]
  | .adminRoute => [.model]
  | .test => [.route]
  | .migration => []

/-- The cross-cutting facts threaded into a descriptor's content
(spec §4.5): the controller receives the AuthRule mapping, the route the
RouteDecision mapping, the service the hooks set, the admin route its
allowed roles. -/
structure TemplateBinding where
  authRules : Option AuthPlan
  routeDecisions : Option (List (RouteKind × RouteDecision))
  hooks : Option (List String)
  allowedRoles : Option (List String)
deriving DecidableEq, Repr

/-- The empty template binding. -/
def TemplateBinding.empty : TemplateBinding :=
  { authRules := none, routeDecisions := none, hooks := none, allowedRoles := none }

/-- One artifact to generate, with its dependencies and content binding
(spec §3 ArtifactDescriptor). -/
structure ArtifactDescriptor where
  kind : ArtifactKind
  targetIdentifier : String
  dependsOn : List ArtifactKind
  content : TemplateBinding
deriving DecidableEq, Repr

/-- The final output: an ordered, dependency-linked sequence of artifact
descriptors (spec §3 GenerationPlan). -/
def GenerationPlan := List ArtifactDescriptor
deriving DecidableEq

/-- The five RouteKinds in a fixed order, used to build the route
decision mapping. -/
def allRouteKinds : List RouteKind :=
  [.getAll, .getById, .create, .update, .delete]

/-- Modelled from the spec: the Artifact Graph Builder (spec §4.5): always
emit model, DTO, service, controller, route in dependency order; append
admin route if `withAdmin`, test if `withTests`, migration unless
`skipMigration`; thread the auth plan, route decisions and hooks into the
respective descriptors. -/
def buildArtifacts (cfg : NormalizedConfig) (auth : AuthPlan)
    (routes : List (RouteKind × RouteDecision)) : GenerationPlan :=
  let mk := fun (k : ArtifactKind) (b : TemplateBinding) =>
    ArtifactDescriptor.mk k cfg.entityName (artifactDeps k) b
  [mk .model TemplateBinding.empty,
   mk .dto TemplateBinding.empty,
   mk .service { TemplateBinding.empty with hooks := some cfg.hooks },
   mk .controller { TemplateBinding.empty with authRules := some auth },
   mk .route { TemplateBinding.empty with routeDecisions := some routes }]
  ++ (if cfg.withAdmin then
        [mk .adminRoute { TemplateBinding.empty with allowedRoles := some cfg.roles }]
      else [])
  ++ (if cfg.withTests then [mk .test TemplateBinding.empty] else [])
  ++ (if !cfg.skipMigration then [mk .migration TemplateBinding.empty] else [])

/-- Post-build consistency failures (spec §4.6, §7). -/
inductive PlanError
  | missingDependency (needed : ArtifactKind)
  | ownershipCheckWithoutField
  | adminWithoutRoles
deriving DecidableEq, Repr

/-- Modelled from the spec: the Plan Validator (spec §4.6): every
dependency must be present in the plan; an ownership check requires a
non-empty ownership field; an admin route requires non-empty allowed
roles. Returns the list of all failures (empty means Ok). -/
def validatePlan (cfg : NormalizedConfig) (auth : AuthPlan)
    (p : GenerationPlan) : List PlanError :=
  let present := p.map (fun a => a.kind)
  (p.flatMap (fun a =>
     (a.dependsOn.filter (fun d => d ∉ present)).map PlanError.missingDependency))
  ++ (if (auth.create.ownershipCheck || auth.update.ownershipCheck
          || auth.delete.ownershipCheck)
         && (cfg.ownershipField = none ∨ cfg.ownershipField = some "")
      then [PlanError.ownershipCheckWithoutField] else [])
  ++ (if cfg.withAdmin && cfg.roles.isEmpty then [PlanError.adminWithoutRoles] else [])

/-- A typed failure of any pipeline stage (spec §7 error taxonomy). -/
inductive PlanFailure
  | invalidIdentifier (e : InvalidIdentifier)
  | configuration (errs : List ConfigError)
  | planErrors (errs : List PlanError)
deriving DecidableEq, Repr

/-- Modelled from the spec: the full planning pipeline (spec §2 control
flow): Identifier Deriver → Option Normalizer → Authorization Plan
Builder + Route Plan Builder → Artifact Graph Builder → Plan Validator;
returns either a complete GenerationPlan or a failure, never a partial
plan. -/
def plan (s : EntitySpec) : Except PlanFailure GenerationPlan :=
  match deriveIdentifiers s.name with
  | .error e => .error (.invalidIdentifier e)
  | .ok ids =>
    match normalize ids s with
    | .error errs => .error (.configuration errs)
    | .ok cfg =>
      let auth := buildAuthPlan cfg
      let routes := allRouteKinds.map (fun k => (k, buildRouteDecision cfg k))
      let p := buildArtifacts cfg auth routes
      match validatePlan cfg auth p with
      | [] => .ok p
      | errs => .error (.planErrors errs)

/-- A database row for a table managed by `BaseService`
(`src/shared/services/base.service.ts`): an id column, a generic data
payload standing for the remaining columns, and the `updatedAt` column. -/
structure Record where
  id : Nat
  payload : String
  updatedAt : Nat
deriving DecidableEq, Repr

/-- The update DTO: the caller-supplied column values of an update. -/
structure UpdateDTO where
  payload : String
deriving DecidableEq, Repr

/-- The optional lifecycle hooks a `BaseService` subclass may implement
(`base.service.ts` lines 107-153); `beforeDelete`/`afterDelete` return
void, so only their invocation is observable. -/
structure BaseServiceHooks where
  beforeUpdate : Option (Nat → UpdateDTO → UpdateDTO)
  afterUpdate : Option (Record → Record)
  beforeDelete : Option (Nat → Unit)
  afterDelete : Option (Nat → Unit)

/-- Observable hook invocations, in call order. -/
inductive HookEvent
  | beforeUpdate
  | afterUpdate
  | beforeDelete
  | afterDelete
deriving DecidableEq, Repr

/-- The row produced by the SQL `set({...processedData, updatedAt: new Date()})`
clause of `BaseService.update`. -/
def applyUpdate (now : Nat) (dto : UpdateDTO) (r : Record) : Record :=
  { r with payload := dto.payload, updatedAt := now }

/-- `BaseService.update` (`base.service.ts` lines 58-81): run `beforeUpdate`
when implemented, update every row matching the id (setting `updatedAt`),
return null when no row matched, otherwise run `afterUpdate` when
implemented on the first returned row. Result: (new table, returned
record or none, hook events in call order). -/
def BaseService.update (svc : BaseServiceHooks) (now : Nat) (tbl : List Record)
    (id : Nat) (dto : UpdateDTO) : List Record × Option Record × List HookEvent :=
  let processed := match svc.beforeUpdate with
    | some h => h id dto
    | none => dto
  let evts := match svc.beforeUpdate with
    | some _ => [HookEvent.beforeUpdate]
    | none => []
  let updated := (tbl.filter (fun r => r.id == id)).map (applyUpdate now processed)
  let tbl2 := tbl.map (fun r => if r.id == id then applyUpdate now processed r else r)
  match updated with
  | [] => (tbl2, none, evts)
  | r :: _ =>
    match svc.afterUpdate with
    | some h => (tbl2, some (h r), evts ++ [HookEvent.afterUpdate])
    | none => (tbl2, some r, evts)

/-- `BaseService.delete` (`base.service.ts` lines 86-105): run
`beforeDelete` when implemented, delete every row matching the id,
`success` iff at least one row was deleted, run `afterDelete` only when
implemented and the deletion succeeded. Result: (new table, success,
hook events in call order). -/
def BaseService.delete (svc : BaseServiceHooks) (tbl : List Record)
    (id : Nat) : List Record × Bool × List HookEvent :=
  let evts := match svc.beforeDelete with
    | some _ => [HookEvent.beforeDelete]
    | none => []
  let deleted := tbl.filter (fun r => r.id == id)
  let tbl2 := tbl.filter (fun r => r.id != id)
  let success := decide (0 < deleted.length)
  let evts2 := match svc.afterDelete with
    | some _ => if success then evts ++ [HookEvent.afterDelete] else evts
    | none => evts
  (tbl2, success, evts2)

/-! ## Sample configurations used by witnesses -/

/-- A concrete normalized configuration with ownership auth; `create` and
`delete` appear in `publicRoutes`, and `delete` is disabled. -/
def sampleConfig : NormalizedConfig :=
  { entityName := "article", EntityName := "Article",
    entityNamePlural := "articles", tableName := "articles",
    ownershipField := some "authorId", ownershipFieldSnake := some "author_id",
    authType := .ownership,
    publicRoutes := [.getAll, .getById, .create, .delete],
    disabledRoutes := [.delete],
    roles := [], hooks := [], withAdmin := false, withTests := true,
    skipMigration := false }

/-- A concrete normalized configuration with role auth. -/
def roleConfig : NormalizedConfig :=
  { entityName := "user", EntityName := "User",
    entityNamePlural := "users", tableName := "users",
    ownershipField := none, ownershipFieldSnake := none,
    authType := .role, publicRoutes := [], disabledRoutes := [],
    roles := ["admin", "superadmin"], hooks := [], withAdmin := false,
    withTests := false, skipMigration := false }

/-- A concrete raw entity specification with no configuration errors. -/
def sampleSpec : EntitySpec :=
  { name := "article", authType := .ownership, ownershipField := some "authorId",
    publicRoutes := [.getAll, .getById], disabledRoutes := [], roles := [],
    hooks := [], withAdmin := false, withTests := true, skipMigration := false }

/-- A concrete raw entity specification with `getAll` both public and
disabled. -/
def conflictSpec : EntitySpec :=
  { name := "article", authType := .none, ownershipField := none,
    publicRoutes := [.getAll], disabledRoutes := [.getAll], roles := [],
    hooks := [], withAdmin := false, withTests := false, skipMigration := false }

/-! ## Helper lemmas -/

/-- The normalizer fails with exactly the collected validation errors
whenever some validation rule is violated. -/
theorem normalize_eq_error (ids : Identifiers) (s : EntitySpec)
    (h : validateSpec s ≠ []) : normalize ids s = .error (validateSpec s) := by
  unfold normalize
  cases hv : validateSpec s with
  | nil => exact absurd hv h
  | cons e es => simp

/-! ## Claims -/

/-- C1: for every normalized configuration and every mutating RouteKind,
the Route Plan Builder's decision has `public = false`, even when the
kind appears in `publicRoutes`; membership of a mutating kind in
`publicRoutes` never removes the authentication requirement. -/
theorem mutating_route_never_public (cfg : NormalizedConfig) (k : RouteKind)
    (hk : k.isMutating = true) : (buildRouteDecision cfg k).public = false := by
  unfold buildRouteDecision
  split
  · rfl
  · simp [hk]

/-- Witness for C1: `create` is mutating and listed in `sampleConfig`'s
`publicRoutes`, yet its route decision is not public. -/
theorem mutating_route_never_public_witness :
    RouteKind.isMutating .create = true
    ∧ RouteKind.create ∈ sampleConfig.publicRoutes
    ∧ (buildRouteDecision sampleConfig .create).public = false :=
  ⟨by decide, by decide, mutating_route_never_public sampleConfig .create (by decide)⟩

/-- C3: for every normalized configuration and mutating RouteKind whose
AuthRule carries `superadminBypass = true`, the bypass short-circuits the
evaluation before the role, ownership and custom checks: a superadmin
caller is authorized whatever the outcomes of those other checks, so the
bypass is never suppressed by the presence of the other flags. -/
theorem superadmin_bypass_short_circuit (cfg : NormalizedConfig)
    (k : RouteKind) (ctx : AuthContext) (hk : k.isMutating = true)
    (hb : (buildAuthRule cfg k).superadminBypass = true)
    (hs : ctx.isSuperadmin = true) :
    evalAuth (buildAuthRule cfg k) ctx = true := by
  unfold evalAuth
  simp [hb, hs]

/-- Witness for C3: role-authenticated `update` carries the bypass, and a
superadmin for whom every other check fails is still authorized. -/
theorem superadmin_bypass_short_circuit_witness :
    RouteKind.isMutating .update = true
    ∧ (buildAuthRule roleConfig .update).superadminBypass = true
    ∧ AuthContext.isSuperadmin ⟨true, false, false, false⟩ = true
    ∧ evalAuth (buildAuthRule roleConfig .update) ⟨true, false, false, false⟩ = true :=
  ⟨by decide, by decide, rfl,
   superadmin_bypass_short_circuit roleConfig .update ⟨true, false, false, false⟩
     (by decide) (by decide) rfl⟩

/-- C4: for every normalized configuration with ownership auth, the
Authorization Plan Builder gives `update` and `delete` rules with
`ownershipCheck = true` and `superadminBypass = true`, gives `create` no
ownership check, and marks the plan as requiring the ownership field to
be injected from the caller's identity at creation time. -/
theorem ownership_auth_rules (cfg : NormalizedConfig)
    (h : cfg.authType = .ownership) :
    (buildAuthPlan cfg).update.ownershipCheck = true
    ∧ (buildAuthPlan cfg).update.superadminBypass = true
    ∧ (buildAuthPlan cfg).delete.ownershipCheck = true
    ∧ (buildAuthPlan cfg).delete.superadminBypass = true
    ∧ (buildAuthPlan cfg).create.ownershipCheck = false
    ∧ (buildAuthPlan cfg).injectOwnershipOnCreate = true := by
  simp [buildAuthPlan, buildAuthRule, h, RouteKind.isMutating, AuthRule.empty]

/-- Witness for C4: the ownership-auth `sampleConfig` instantiates the
ownership authorization plan shape. -/
theorem ownership_auth_rules_witness :
    sampleConfig.authType = .ownership
    ∧ (buildAuthPlan sampleConfig).update.ownershipCheck = true
    ∧ (buildAuthPlan sampleConfig).injectOwnershipOnCreate = true :=
  ⟨rfl, (ownership_auth_rules sampleConfig rfl).1,
   (ownership_auth_rules sampleConfig rfl).2.2.2.2.2⟩

/-- C5: for every normalized configuration, a RouteKind in
`disabledRoutes` gets a route decision with `emitted = false`, regardless
of its membership in `publicRoutes` and regardless of `authType`. -/
theorem disabled_route_not_emitted (cfg : NormalizedConfig) (k : RouteKind)
    (h : k ∈ cfg.disabledRoutes) : (buildRouteDecision cfg k).emitted = false := by
  unfold buildRouteDecision
  simp [h]

/-- Witness for C5: `delete` is disabled in `sampleConfig` (while also
listed public) and its route decision is not emitted. -/
theorem disabled_route_not_emitted_witness :
    RouteKind.delete ∈ sampleConfig.disabledRoutes
    ∧ RouteKind.delete ∈ sampleConfig.publicRoutes
    ∧ (buildRouteDecision sampleConfig .delete).emitted = false :=
  ⟨by decide, by decide, disabled_route_not_emitted sampleConfig .delete (by decide)⟩

/-- C8: planning is deterministic: two runs of the full pipeline on
identical EntitySpec inputs produce structurally identical results
(the pipeline is a pure function of its input). -/
theorem planning_deterministic (s1 s2 : EntitySpec) (h : s1 = s2) :
    plan s1 = plan s2 := by rw [h]

/-- Witness for C8: two runs of the pipeline on `sampleSpec` agree. -/
theorem planning_deterministic_witness :
    sampleSpec = sampleSpec ∧ plan sampleSpec = plan sampleSpec :=
  ⟨rfl, planning_deterministic sampleSpec sampleSpec rfl⟩

/-- C2: for every EntitySpec with a RouteKind in both `publicRoutes` and
`disabledRoutes`, the Option Normalizer fails with a configuration error
naming the conflict (never silently resolving in favor of disabled), and
the pipeline produces zero artifacts. -/
theorem public_disabled_conflict_fails (s : EntitySpec) (k : RouteKind)
    (h1 : k ∈ s.publicRoutes) (h2 : k ∈ s.disabledRoutes) :
    (∀ ids, normalize ids s = .error (validateSpec s)
        ∧ ConfigError.publicDisabledConflict k ∈ validateSpec s)
    ∧ (∀ p, plan s ≠ .ok p) := by
  have hmem : ConfigError.publicDisabledConflict k ∈ validateSpec s := by
    unfold validateSpec
    refine List.mem_append_left _ (List.mem_append_right _ ?_)
    exact List.mem_map_of_mem _ (List.mem_filter.mpr ⟨h1, by simp [h2]⟩)
  have hne : validateSpec s ≠ [] := fun hv => by simp [hv] at hmem
  refine ⟨fun ids => ⟨normalize_eq_error ids s hne, hmem⟩, fun p hp => ?_⟩
  unfold plan at hp
  cases hd : deriveIdentifiers s.name with
  | error e => simp [hd] at hp
  | ok ids => simp [hd, normalize_eq_error ids s hne] at hp

/-- Witness for C2: `conflictSpec` lists `getAll` as both public and
disabled; normalization fails and no plan is produced. -/
theorem public_disabled_conflict_fails_witness :
    RouteKind.getAll ∈ conflictSpec.publicRoutes
    ∧ RouteKind.getAll ∈ conflictSpec.disabledRoutes
    ∧ (∀ p, plan conflictSpec ≠ .ok p) :=
  ⟨by decide, by decide,
   (public_disabled_conflict_fails conflictSpec .getAll (by decide) (by decide)).2⟩

/-- C6: for every EntitySpec with role auth and an empty roles list,
normalization fails with a configuration error instead of producing a
NormalizedConfig. -/
theorem role_auth_empty_roles_fails (s : EntitySpec) (ids : Identifiers)
    (h1 : s.authType = .role) (h2 : s.roles = []) :
    normalize ids s = .error (validateSpec s)
    ∧ ConfigError.emptyRolesForRoleAuth ∈ validateSpec s := by
  have hmem : ConfigError.emptyRolesForRoleAuth ∈ validateSpec s := by
    unfold validateSpec
    refine List.mem_append_left _ (List.mem_append_left _ (List.mem_append_left _ ?_))
    simp [h1, h2]
  exact ⟨normalize_eq_error ids s (fun hv => by simp [hv] at hmem), hmem⟩

/-- A concrete raw entity specification with role auth and no roles. -/
def emptyRoleSpec : EntitySpec :=
  { name := "user", authType := .role, ownershipField := none,
    publicRoutes := [], disabledRoutes := [], roles := [], hooks := [],
    withAdmin := false, withTests := false, skipMigration := false }

/-- Concrete identifiers for the `user` entity. -/
def userIds : Identifiers :=
  { entityName := "user", EntityName := "User", entityNamePlural := "users",
    EntityNamePlural := "Users", tableName := "users" }

/-- Witness for C6: `emptyRoleSpec` has role auth with no roles and its
normalization fails. -/
theorem role_auth_empty_roles_fails_witness :
    emptyRoleSpec.authType = .role
    ∧ emptyRoleSpec.roles = []
    ∧ normalize userIds emptyRoleSpec = .error (validateSpec emptyRoleSpec) :=
  ⟨rfl, rfl, (role_auth_empty_roles_fails emptyRoleSpec userIds rfl rfl).1⟩

/-- C7: for every successfully normalized EntitySpec, the normalized
`ownershipField` is the explicitly supplied value when one is given,
otherwise `"userId"` when `authType = ownership`, and absent otherwise;
the default is resolved inside the Option Normalizer, before any
downstream builder consumes the configuration. -/
theorem ownership_field_defaulting (s : EntitySpec) (ids : Identifiers)
    (cfg : NormalizedConfig) (h : normalize ids s = .ok cfg) :
    (∀ v, s.ownershipField = some v → cfg.ownershipField = some v)
    ∧ (s.ownershipField = none → s.authType = .ownership →
        cfg.ownershipField = some "userId")
    ∧ (s.ownershipField = none → s.authType ≠ .ownership →
        cfg.ownershipField = none) := by
  have hof : cfg.ownershipField = defaultedOwnershipField s := by
    unfold normalize at h
    cases hv : validateSpec s with
    | nil => rw [hv] at h; cases h; rfl
    | cons e es => rw [hv] at h; exact Except.noConfusion h
  refine ⟨fun v hv => ?_, fun hn ho => ?_, fun hn ho => ?_⟩
  · rw [hof]; unfold defaultedOwnershipField; rw [hv]
  · rw [hof]; unfold defaultedOwnershipField; rw [hn]; simp [ho]
  · rw [hof]; unfold defaultedOwnershipField; rw [hn]; simp [ho]

/-- A concrete raw entity specification with ownership auth and no
explicit ownership field. -/
def ownershipSpec : EntitySpec :=
  { name := "article", authType := .ownership, ownershipField := none,
    publicRoutes := [], disabledRoutes := [], roles := [], hooks := [],
    withAdmin := false, withTests := false, skipMigration := false }

/-- Concrete identifiers for the `article` entity. -/
def articleIds : Identifiers :=
  { entityName := "article", EntityName := "Article",
    entityNamePlural := "articles", EntityNamePlural := "Articles",
    tableName := "articles" }

/-- The configuration the normalizer produces for `ownershipSpec`. -/
def ownershipNormalized : NormalizedConfig :=
  { entityName := "article", EntityName := "Article",
    entityNamePlural := "articles", tableName := "articles",
    ownershipField := some "userId", ownershipFieldSnake := some "user_id",
    authType := .ownership, publicRoutes := [], disabledRoutes := [],
    roles := [], hooks := [], withAdmin := false, withTests := false,
    skipMigration := false }

/-- Witness for C7: normalizing `ownershipSpec` (ownership auth, no
explicit field) defaults the ownership field to `"userId"`. -/
theorem ownership_field_defaulting_witness :
    normalize articleIds ownershipSpec = .ok ownershipNormalized
    ∧ ownershipNormalized.ownershipField = some "userId" :=
  ⟨rfl,
   (ownership_field_defaulting ownershipSpec articleIds ownershipNormalized
      rfl).2.1 rfl rfl⟩

/-- Concrete hooks for the `BaseService` witnesses: every lifecycle hook
is implemented (as the identity / no-op, mirroring the test subclass that
records invocations). -/
def sampleHooks : BaseServiceHooks :=
  { beforeUpdate := some (fun _ d => d), afterUpdate := some (fun r => r),
    beforeDelete := some (fun _ => ()), afterDelete := some (fun _ => ()) }

/-- C9: for every id, `BaseService.delete` returns true exactly when a
record with that id existed (and afterwards no such record remains); with
the hooks implemented, `beforeDelete` is invoked unconditionally while
`afterDelete` is invoked exactly when the deletion succeeded. -/
theorem delete_success_iff_existed (svc : BaseServiceHooks)
    (tbl : List Record) (id : Nat) (f g : Nat → Unit)
    (hb : svc.beforeDelete = some f) (ha : svc.afterDelete = some g) :
    ((BaseService.delete svc tbl id).2.1 = true ↔ ∃ r ∈ tbl, r.id = id)
    ∧ (∀ r ∈ (BaseService.delete svc tbl id).1, r.id ≠ id)
    ∧ HookEvent.beforeDelete ∈ (BaseService.delete svc tbl id).2.2
    ∧ (HookEvent.afterDelete ∈ (BaseService.delete svc tbl id).2.2
        ↔ (BaseService.delete svc tbl id).2.1 = true) := by
  unfold BaseService.delete
  rw [hb, ha]
  refine ⟨?_, ?_, ?_, ?_⟩
  · simp [List.length_pos, List.filter_eq_nil_iff]
  · intro r hr
    simp only [List.mem_filter] at hr
    simpa using hr.2
  · by_cases h : 0 < (tbl.filter (fun r => r.id == id)).length <;> simp [h]
  · by_cases h : 0 < (tbl.filter (fun r => r.id == id)).length <;> simp [h]

/-- Witness for C9: deleting the only record with id 1 succeeds and calls
`beforeDelete`. -/
theorem delete_success_iff_existed_witness :
    sampleHooks.beforeDelete = some (fun _ => ())
    ∧ sampleHooks.afterDelete = some (fun _ => ())
    ∧ HookEvent.beforeDelete ∈ (BaseService.delete sampleHooks [⟨1, "a", 0⟩] 1).2.2 :=
  ⟨rfl, rfl,
   (delete_success_iff_existed sampleHooks [⟨1, "a", 0⟩] 1 _ _ rfl rfl).2.2.1⟩

/-- C10: for every id with no matching record, `BaseService.update`
returns null, does not invoke `afterUpdate`, still invokes `beforeUpdate`
before existence is known, and modifies no record. -/
theorem update_missing_returns_null (svc : BaseServiceHooks) (now : Nat)
    (tbl : List Record) (id : Nat) (dto : UpdateDTO)
    (f : Nat → UpdateDTO → UpdateDTO) (g : Record → Record)
    (hb : svc.beforeUpdate = some f) (ha : svc.afterUpdate = some g)
    (hno : ∀ r ∈ tbl, r.id ≠ id) :
    (BaseService.update svc now tbl id dto).2.1 = none
    ∧ HookEvent.afterUpdate ∉ (BaseService.update svc now tbl id dto).2.2
    ∧ HookEvent.beforeUpdate ∈ (BaseService.update svc now tbl id dto).2.2
    ∧ (BaseService.update svc now tbl id dto).1 = tbl := by
  have hfil : tbl.filter (fun r => r.id == id) = [] :=
    List.filter_eq_nil_iff.mpr (fun r hr => by simp [hno r hr])
  have hmap : tbl.map
      (fun r => if r.id == id then applyUpdate now (f id dto) r else r) = tbl := by
    have h1 : tbl.map (fun r => if r.id == id then applyUpdate now (f id dto) r else r)
        = tbl.map (fun r => r) :=
      List.map_congr_left (fun r hr => by simp [hno r hr])
    simpa using h1
  have hmapP : tbl.map
      (fun r => if r.id = id then applyUpdate now (f id dto) r else r) = tbl := by
    have h1 : tbl.map (fun r => if r.id = id then applyUpdate now (f id dto) r else r)
        = tbl.map (fun r => r) :=
      List.map_congr_left (fun r hr => by simp [hno r hr])
    simpa using h1
  unfold BaseService.update
  rw [hb]
  simp [hfil, hmap, hmapP]

/-- Witness for C10: updating id 2 in a table holding only id 1 returns
null. -/
theorem update_missing_returns_null_witness :
    sampleHooks.beforeUpdate = some (fun _ d => d)
    ∧ (∀ r ∈ [Record.mk 1 "a" 0], r.id ≠ 2)
    ∧ (BaseService.update sampleHooks 5 [⟨1, "a", 0⟩] 2 ⟨"b"⟩).2.1 = none :=
  ⟨rfl, by decide,
   (update_missing_returns_null sampleHooks 5 [⟨1, "a", 0⟩] 2 ⟨"b"⟩ _ _ rfl rfl
      (by decide)).1⟩

end TStack
